import Mathlib

/-!
Shallow embedding of `crates/binstalk-types/src/cargo_toml_binstall/package_formats.rs`:
the `PkgFmt` enumeration and its associated operations (`Default`, `decompose`,
`extensions`, `guess_pkg_format`), together with `PkgFmtDecomposed`, `TarBasedFmt`
and `impl From<TarBasedFmt> for PkgFmt`.
-/

/-- Translates `enum PkgFmt` (the 11 package-format variants). -/
inductive PkgFmt where
  | Tar
  | Tbz2
  | Bz2
  | Tgz
  | Gz
  | Txz
  | Xz
  | Tzstd
  | Zst
  | Zip
  | Bin
  deriving DecidableEq, Fintype

/-- Translates `impl Default for PkgFmt { fn default() -> Self { Self::Tgz } }`. -/
def PkgFmt.default : PkgFmt := PkgFmt.Tgz

/-- Translates `enum TarBasedFmt` (the 5 tar-based formats). -/
inductive TarBasedFmt where
  | Tar
  | Tbz2
  | Tgz
  | Txz
  | Tzstd
  deriving DecidableEq, Fintype

/-- Translates `enum PkgFmtDecomposed`. -/
inductive PkgFmtDecomposed where
  | Tar (t : TarBasedFmt)
  | Bz2
  | Gz
  | Xz
  | Zst
  | Bin
  | Zip
  deriving DecidableEq, Fintype

/-- Translates `PkgFmt::decompose`. -/
def PkgFmt.decompose : PkgFmt → PkgFmtDecomposed
  | PkgFmt.Tar => PkgFmtDecomposed.Tar TarBasedFmt.Tar
  | PkgFmt.Tbz2 => PkgFmtDecomposed.Tar TarBasedFmt.Tbz2
  | PkgFmt.Bz2 => PkgFmtDecomposed.Bz2
  | PkgFmt.Tgz => PkgFmtDecomposed.Tar TarBasedFmt.Tgz
  | PkgFmt.Gz => PkgFmtDecomposed.Gz
  | PkgFmt.Txz => PkgFmtDecomposed.Tar TarBasedFmt.Txz
  | PkgFmt.Xz => PkgFmtDecomposed.Xz
  | PkgFmt.Tzstd => PkgFmtDecomposed.Tar TarBasedFmt.Tzstd
  | PkgFmt.Zst => PkgFmtDecomposed.Zst
  | PkgFmt.Bin => PkgFmtDecomposed.Bin
  | PkgFmt.Zip => PkgFmtDecomposed.Zip

/-- Translates `impl From<TarBasedFmt> for PkgFmt`. -/
def TarBasedFmt.toPkgFmt : TarBasedFmt → PkgFmt
  | TarBasedFmt.Tar => PkgFmt.Tar
  | TarBasedFmt.Tbz2 => PkgFmt.Tbz2
  | TarBasedFmt.Tgz => PkgFmt.Tgz
  | TarBasedFmt.Txz => PkgFmt.Txz
  | TarBasedFmt.Tzstd => PkgFmt.Tzstd

/-- Translates `PkgFmt::extensions(self, is_windows)`; the returned static slice
becomes a `List String`. -/
def PkgFmt.extensions : PkgFmt → Bool → List String
  | PkgFmt.Tar, _ => [".tar"]
  | PkgFmt.Tbz2, _ => [".tbz2", ".tar.bz2"]
  | PkgFmt.Bz2, _ => [".bz2"]
  | PkgFmt.Tgz, _ => [".tgz", ".tar.gz"]
  | PkgFmt.Gz, _ => [".gz"]
  | PkgFmt.Txz, _ => [".txz", ".tar.xz"]
  | PkgFmt.Xz, _ => [".xz"]
  | PkgFmt.Tzstd, _ => [".tzstd", ".tzst", ".tar.zst"]
  | PkgFmt.Zst, _ => [".zst"]
  | PkgFmt.Bin, is_windows =>
    if is_windows then [".bin", "", ".exe"] else [".bin", ""]
  | PkgFmt.Zip, _ => [".zip"]

/-- Splitting a character list on `'.'`: the helper underlying [dotSegments].
`acc` holds the characters of the current segment, reversed. -/
def splitDotAux : List Char → List Char → List String
  | [], acc => [String.mk acc.reverse]
  | c :: cs, acc =>
    if c = '.' then String.mk acc.reverse :: splitDotAux cs []
    else splitDotAux cs (c :: acc)

/-- The dot-separated segments of a string, left to right (the semantics of
Rust `str::split('.')`: always at least one segment, empty segments kept). -/
def dotSegments (s : String) : List String := splitDotAux s.data []

/-- Collects Rust `str::rsplitn(3, '.')` into a list, given the reversed full
segment list: at most 3 pieces, split from the right, the last piece holding
the unsplit remainder of the string. -/
def rsplitn3OfRev : List String → List String
  | [] => []
  | [a] => [a]
  | [a, b] => [a, b]
  | a :: b :: rest => [a, b, String.intercalate "." rest.reverse]

/-- Models Rust `pkg_url.rsplitn(3, '.')` (as the list of items the iterator
yields, in order). -/
def rsplitn3 (s : String) : List String := rsplitn3OfRev (dotSegments s).reverse

/-- Translates the token table of `PkgFmt::guess_pkg_format`: the `match` on the
last dot-separated segment (`it.next()?`). -/
def guessToken (t : String) : Option PkgFmt :=
  if t = "tar" then some PkgFmt.Tar
  else if t = "tbz2" then some PkgFmt.Tbz2
  else if t = "bz2" then some PkgFmt.Bz2
  else if t = "tgz" then some PkgFmt.Tgz
  else if t = "gz" then some PkgFmt.Gz
  else if t = "txz" then some PkgFmt.Txz
  else if t = "xz" then some PkgFmt.Xz
  else if t = "tzstd" then some PkgFmt.Tzstd
  else if t = "tzst" then some PkgFmt.Tzstd
  else if t = "zst" then some PkgFmt.Zst
  else if t = "exe" then some PkgFmt.Bin
  else if t = "bin" then some PkgFmt.Bin
  else if t = "zip" then some PkgFmt.Zip
  else none

/-- Translates the inner `match` of `PkgFmt::guess_pkg_format` that converts a
guess to a tar-based format when a `.tar.{fmt}` suffix is seen. -/
def tarUpgrade : PkgFmt → PkgFmt
  | PkgFmt.Bz2 => PkgFmt.Tbz2
  | PkgFmt.Gz => PkgFmt.Tgz
  | PkgFmt.Xz => PkgFmt.Txz
  | PkgFmt.Zst => PkgFmt.Tzstd
  | pkgfmt => pkgfmt

/-- The body of `PkgFmt::guess_pkg_format` acting on the items yielded by the
`rsplitn(3, '.')` iterator: `first` is `it.next()?`, `rest.head?` is the second
`it.next()` and `rest.drop 1 ≠ []` is `it.next().is_some()` for the third. -/
def guessSegments : List String → Option PkgFmt
  | [] => none
  | first :: rest =>
    let guess := guessToken first
    if guess.isSome ∧ rest.head? = some "tar" then
      if rest.drop 1 ≠ [] then guess.map tarUpgrade
      else none
    else guess

/-- Translates `PkgFmt::guess_pkg_format(pkg_url)`. -/
def PkgFmt.guess_pkg_format (pkg_url : String) : Option PkgFmt :=
  guessSegments (rsplitn3 pkg_url)

/-- The last dot-separated segment of a string (statement vocabulary). -/
def lastSegment (s : String) : Option String := (dotSegments s).reverse.head?

/-- The second-to-last dot-separated segment of a string, when it exists
(statement vocabulary). -/
def secondLastSegment (s : String) : Option String := (dotSegments s).reverse.tail.head?

/-- The 13 tokens of the table in `guess_pkg_format` (statement vocabulary). -/
def fmtTokens : List String :=
  ["tar", "tbz2", "bz2", "tgz", "gz", "txz", "xz", "tzstd", "tzst", "zst", "exe", "bin", "zip"]

/-- ASCII lower-casing of a character (statement vocabulary for the
case-sensitivity claim). -/
def asciiLower (c : Char) : Char :=
  if 'A' ≤ c ∧ c ≤ 'Z' then Char.ofNat (c.toNat + 32) else c

/-- ASCII lower-casing of a string (statement vocabulary). -/
def asciiLowerStr (s : String) : String := String.mk (s.data.map asciiLower)

/-- `guess_pkg_format` only inspects the first two items of the `rsplitn(3, '.')`
iterator and whether a third exists, so clamping the reversed segment list to
three pieces does not change the result. -/
lemma guess_pkg_format_eq_segments (s : String) :
    PkgFmt.guess_pkg_format s = guessSegments (dotSegments s).reverse := by
  unfold PkgFmt.guess_pkg_format rsplitn3
  cases h : (dotSegments s).reverse with
  | nil => rfl
  | cons a l =>
    cases l with
    | nil => rfl
    | cons b l₂ =>
      cases l₂ with
      | nil => rfl
      | cons c l₃ => simp [rsplitn3OfRev, guessSegments]

/-- When the segment before the last one is not `tar` (or is absent), the body of
`guess_pkg_format` returns the raw token-table guess. -/
lemma guessSegments_no_tar (tok : String) (rest : List String)
    (h : rest.head? ≠ some "tar") :
    guessSegments (tok :: rest) = guessToken tok := by
  simp [guessSegments, h]

/-- When the last token is not in the table, the body of `guess_pkg_format`
returns `none` regardless of the remaining segments. -/
lemma guessSegments_token_none (tok : String) (rest : List String)
    (h : guessToken tok = none) :
    guessSegments (tok :: rest) = none := by
  simp [guessSegments, h]

/-- A matched token followed by `tar` with a further segment to its left is
upgraded by the body of `guess_pkg_format`. -/
lemma guessSegments_upgrade (tok c : String) (rest : List String) (fmt : PkgFmt)
    (htok : guessToken tok = some fmt) :
    guessSegments (tok :: "tar" :: c :: rest) = some (tarUpgrade fmt) := by
  simp [guessSegments, htok]

/-- A matched token followed by `tar` with nothing to its left is rejected by
the body of `guess_pkg_format`. -/
lemma guessSegments_bare_tar (tok : String)
    (h : (guessToken tok).isSome) :
    guessSegments [tok, "tar"] = none := by
  simp [guessSegments, h]

/-- A token outside the 13-entry table is rejected by the token `match`. -/
lemma guessToken_none_of_not_mem (t : String) (h : t ∉ fmtTokens) :
    guessToken t = none := by
  simp only [fmtTokens, List.mem_cons, List.not_mem_nil, or_false, not_or] at h
  obtain ⟨h1, h2, h3, h4, h5, h6, h7, h8, h9, h10, h11, h12, h13⟩ := h
  unfold guessToken
  rw [if_neg h1, if_neg h2, if_neg h3, if_neg h4, if_neg h5, if_neg h6, if_neg h7,
    if_neg h8, if_neg h9, if_neg h10, if_neg h11, if_neg h12, if_neg h13]

/-- C1: for every string whose last dot-separated segment is a token of the
table, if the second-to-last segment (if any) is not `tar` then
`guess_pkg_format` returns exactly the format named by the token table
(`tar→Tar; tbz2→Tbz2; bz2→Bz2; tgz→Tgz; gz→Gz; txz→Txz; xz→Xz;
tzstd|tzst→Tzstd; zst→Zst; exe|bin→Bin; zip→Zip`); and for every string
whose last segment is any other token the result is `none`, regardless of
the other segments; in particular `foo.tgz ↦ Tgz`, `foo.gz ↦ Gz`,
`foo.zip ↦ Zip`, `foo.exe ↦ Bin`, `foo.unknown ↦ none`. -/
theorem guess_last_token_determines (s tok : String)
    (hlast : lastSegment s = some tok) :
    (secondLastSegment s ≠ some "tar" →
      PkgFmt.guess_pkg_format s =
        (if tok = "tar" then some PkgFmt.Tar
         else if tok = "tbz2" then some PkgFmt.Tbz2
         else if tok = "bz2" then some PkgFmt.Bz2
         else if tok = "tgz" then some PkgFmt.Tgz
         else if tok = "gz" then some PkgFmt.Gz
         else if tok = "txz" then some PkgFmt.Txz
         else if tok = "xz" then some PkgFmt.Xz
         else if tok = "tzstd" then some PkgFmt.Tzstd
         else if tok = "tzst" then some PkgFmt.Tzstd
         else if tok = "zst" then some PkgFmt.Zst
         else if tok = "exe" then some PkgFmt.Bin
         else if tok = "bin" then some PkgFmt.Bin
         else if tok = "zip" then some PkgFmt.Zip
         else none)) ∧
    (tok ∉ fmtTokens → PkgFmt.guess_pkg_format s = none) ∧
    PkgFmt.guess_pkg_format "foo.tgz" = some PkgFmt.Tgz ∧
    PkgFmt.guess_pkg_format "foo.gz" = some PkgFmt.Gz ∧
    PkgFmt.guess_pkg_format "foo.zip" = some PkgFmt.Zip ∧
    PkgFmt.guess_pkg_format "foo.exe" = some PkgFmt.Bin ∧
    PkgFmt.guess_pkg_format "foo.unknown" = none := by
  refine ⟨?_, ?_, by decide, by decide, by decide, by decide, by decide⟩
  · intro hsnd
    rw [guess_pkg_format_eq_segments]
    unfold lastSegment at hlast
    unfold secondLastSegment at hsnd
    cases hrev : (dotSegments s).reverse with
    | nil => rw [hrev] at hlast; simp at hlast
    | cons a rest =>
      rw [hrev] at hlast hsnd
      simp only [List.head?_cons, Option.some.injEq] at hlast
      subst hlast
      simp only [List.tail_cons] at hsnd
      rw [guessSegments_no_tar a rest hsnd]
      rfl
  · intro hnot
    rw [guess_pkg_format_eq_segments]
    unfold lastSegment at hlast
    cases hrev : (dotSegments s).reverse with
    | nil => rw [hrev] at hlast; simp at hlast
    | cons a rest =>
      rw [hrev] at hlast
      simp only [List.head?_cons, Option.some.injEq] at hlast
      subst hlast
      exact guessSegments_token_none a rest (guessToken_none_of_not_mem a hnot)

/-- C1 witness: the table case at `"foo.tgz"` (token `"tgz"`, no `tar` before
it) and the unknown-token case at `"foo.tar.unknown"`, where `tar` does sit
before the last segment yet the result is still `none`. -/
theorem guess_last_token_determines_witness :
    PkgFmt.guess_pkg_format "foo.tgz" =
      (if "tgz" = "tar" then some PkgFmt.Tar
       else if "tgz" = "tbz2" then some PkgFmt.Tbz2
       else if "tgz" = "bz2" then some PkgFmt.Bz2
       else if "tgz" = "tgz" then some PkgFmt.Tgz
       else if "tgz" = "gz" then some PkgFmt.Gz
       else if "tgz" = "txz" then some PkgFmt.Txz
       else if "tgz" = "xz" then some PkgFmt.Xz
       else if "tgz" = "tzstd" then some PkgFmt.Tzstd
       else if "tgz" = "tzst" then some PkgFmt.Tzstd
       else if "tgz" = "zst" then some PkgFmt.Zst
       else if "tgz" = "exe" then some PkgFmt.Bin
       else if "tgz" = "bin" then some PkgFmt.Bin
       else if "tgz" = "zip" then some PkgFmt.Zip
       else none) ∧
    PkgFmt.guess_pkg_format "foo.tar.unknown" = none :=
  ⟨(guess_last_token_determines "foo.tgz" "tgz" (by decide)).1 (by decide),
    (guess_last_token_determines "foo.tar.unknown" "unknown" (by decide)).2.1
      (by decide)⟩

/-- C2: for every string with at least 3 dot-separated segments whose last
segment is a matched token and whose second-to-last segment is `tar`,
`guess_pkg_format` upgrades the guess through the tar-upgrade table
(`Bz2→Tbz2, Gz→Tgz, Xz→Txz, Zst→Tzstd`, everything else unchanged, in
particular `Tar`, `Bin` and `Zip`); in particular `foo.tar.gz ↦ Tgz` and
`archive.tar.zst ↦ Tzstd`. -/
theorem guess_tar_upgraded (s tok : String) (fmt : PkgFmt)
    (hlast : lastSegment s = some tok)
    (hsnd : secondLastSegment s = some "tar")
    (hlen : 3 ≤ (dotSegments s).length)
    (htok : guessToken tok = some fmt) :
    PkgFmt.guess_pkg_format s = some (tarUpgrade fmt) ∧
    tarUpgrade PkgFmt.Bz2 = PkgFmt.Tbz2 ∧
    tarUpgrade PkgFmt.Gz = PkgFmt.Tgz ∧
    tarUpgrade PkgFmt.Xz = PkgFmt.Txz ∧
    tarUpgrade PkgFmt.Zst = PkgFmt.Tzstd ∧
    tarUpgrade PkgFmt.Tar = PkgFmt.Tar ∧
    tarUpgrade PkgFmt.Bin = PkgFmt.Bin ∧
    tarUpgrade PkgFmt.Zip = PkgFmt.Zip ∧
    PkgFmt.guess_pkg_format "foo.tar.gz" = some PkgFmt.Tgz ∧
    PkgFmt.guess_pkg_format "archive.tar.zst" = some PkgFmt.Tzstd := by
  refine ⟨?_, rfl, rfl, rfl, rfl, rfl, rfl, rfl, by decide, by decide⟩
  rw [guess_pkg_format_eq_segments]
  unfold lastSegment at hlast
  unfold secondLastSegment at hsnd
  have hlen' : 3 ≤ (dotSegments s).reverse.length := by
    rw [List.length_reverse]; exact hlen
  cases hrev : (dotSegments s).reverse with
  | nil => rw [hrev] at hlast; simp at hlast
  | cons a rest =>
    rw [hrev] at hlast hsnd hlen'
    simp only [List.head?_cons, Option.some.injEq] at hlast
    subst hlast
    simp only [List.tail_cons] at hsnd
    cases rest with
    | nil => simp at hsnd
    | cons b rest₂ =>
      simp only [List.head?_cons, Option.some.injEq] at hsnd
      subst hsnd
      cases rest₂ with
      | nil => simp at hlen'
      | cons c rest₃ => exact guessSegments_upgrade a c rest₃ fmt htok

/-- C2 witness: instantiated at `"foo.tar.gz"` with token `"gz"`. -/
theorem guess_tar_upgraded_witness :
    PkgFmt.guess_pkg_format "foo.tar.gz" = some (tarUpgrade PkgFmt.Gz) :=
  (guess_tar_upgraded "foo.tar.gz" "gz" PkgFmt.Gz (by decide) (by decide)
    (by decide) (by decide)).1

/-- C3: a string that is exactly `tar.<suffix>` — two dot-separated segments,
the first being `tar` — with a suffix that the token table matches is rejected:
`guess_pkg_format` returns `none`; in particular `tar.gz ↦ none`. -/
theorem guess_bare_tar_rejected (s tok : String)
    (hparts : dotSegments s = ["tar", tok])
    (htok : (guessToken tok).isSome) :
    PkgFmt.guess_pkg_format s = none ∧
    PkgFmt.guess_pkg_format "tar.gz" = none := by
  refine ⟨?_, by decide⟩
  rw [guess_pkg_format_eq_segments, hparts]
  exact guessSegments_bare_tar tok htok

/-- C3 witness: instantiated at `"tar.gz"` with suffix `"gz"`. -/
theorem guess_bare_tar_rejected_witness :
    PkgFmt.guess_pkg_format "tar.gz" = none :=
  (guess_bare_tar_rejected "tar.gz" "gz" (by decide) (by decide)).1

/-- C4: `decompose` is total (each of the 11 formats maps to exactly one
decomposed value); the result is a `Tar`-container value exactly for the 5
tar-based variants; and converting the inner `TarBasedFmt` back through
`From<TarBasedFmt> for PkgFmt` reproduces the original variant. -/
theorem decompose_total_tar_roundtrip :
    (∀ f : PkgFmt, ∃! d : PkgFmtDecomposed, PkgFmt.decompose f = d) ∧
    (∀ f : PkgFmt,
      (∃ t, PkgFmt.decompose f = PkgFmtDecomposed.Tar t) ↔
        (f = PkgFmt.Tar ∨ f = PkgFmt.Tbz2 ∨ f = PkgFmt.Tgz ∨
          f = PkgFmt.Txz ∨ f = PkgFmt.Tzstd)) ∧
    (∀ f t, PkgFmt.decompose f = PkgFmtDecomposed.Tar t →
      TarBasedFmt.toPkgFmt t = f) := by
  refine ⟨fun f => ⟨PkgFmt.decompose f, rfl, fun y hy => hy.symm⟩, by decide, by decide⟩

/-- C4 witness: the roundtrip instantiated at `Tgz`. -/
theorem decompose_total_tar_roundtrip_witness :
    TarBasedFmt.toPkgFmt TarBasedFmt.Tgz = PkgFmt.Tgz :=
  decompose_total_tar_roundtrip.2.2 PkgFmt.Tgz TarBasedFmt.Tgz (by decide)

/-- C5: `extensions` returns exactly the spec table for every format and both
flag values; the list is flag-independent for every format except `Bin`, and
`.exe` is present exactly when the format is `Bin` and the flag is set. -/
theorem extensions_match_table :
    (∀ w, PkgFmt.extensions PkgFmt.Tar w = [".tar"]) ∧
    (∀ w, PkgFmt.extensions PkgFmt.Tbz2 w = [".tbz2", ".tar.bz2"]) ∧
    (∀ w, PkgFmt.extensions PkgFmt.Bz2 w = [".bz2"]) ∧
    (∀ w, PkgFmt.extensions PkgFmt.Tgz w = [".tgz", ".tar.gz"]) ∧
    (∀ w, PkgFmt.extensions PkgFmt.Gz w = [".gz"]) ∧
    (∀ w, PkgFmt.extensions PkgFmt.Txz w = [".txz", ".tar.xz"]) ∧
    (∀ w, PkgFmt.extensions PkgFmt.Xz w = [".xz"]) ∧
    (∀ w, PkgFmt.extensions PkgFmt.Tzstd w = [".tzstd", ".tzst", ".tar.zst"]) ∧
    (∀ w, PkgFmt.extensions PkgFmt.Zst w = [".zst"]) ∧
    (∀ w, PkgFmt.extensions PkgFmt.Zip w = [".zip"]) ∧
    PkgFmt.extensions PkgFmt.Bin true = [".bin", "", ".exe"] ∧
    PkgFmt.extensions PkgFmt.Bin false = [".bin", ""] ∧
    ".exe" ∈ PkgFmt.extensions PkgFmt.Bin true ∧
    ".exe" ∉ PkgFmt.extensions PkgFmt.Bin false ∧
    (∀ (f : PkgFmt) (w₁ w₂ : Bool), f ≠ PkgFmt.Bin →
      PkgFmt.extensions f w₁ = PkgFmt.extensions f w₂) := by
  decide

/-- C5 witness: flag-independence instantiated at `Tgz`. -/
theorem extensions_match_table_witness :
    PkgFmt.extensions PkgFmt.Tgz true = PkgFmt.extensions PkgFmt.Tgz false :=
  extensions_match_table.2.2.2.2.2.2.2.2.2.2.2.2.2.2
    PkgFmt.Tgz true false (by decide)

/-- C6: a string with a single dot-separated segment (no dot at all) whose sole
segment matches the token table is classified as that match, with no special
failure; in particular `tar ↦ Tar` and `zip ↦ Zip`. -/
theorem guess_single_segment (s tok : String) (fmt : PkgFmt)
    (hparts : dotSegments s = [tok])
    (htok : guessToken tok = some fmt) :
    PkgFmt.guess_pkg_format s = some fmt ∧
    PkgFmt.guess_pkg_format "tar" = some PkgFmt.Tar ∧
    PkgFmt.guess_pkg_format "zip" = some PkgFmt.Zip := by
  refine ⟨?_, by decide, by decide⟩
  rw [guess_pkg_format_eq_segments, hparts, List.reverse_singleton]
  rw [guessSegments_no_tar tok [] (by simp)]
  exact htok

/-- C6 witness: instantiated at `"tar"`. -/
theorem guess_single_segment_witness :
    PkgFmt.guess_pkg_format "tar" = some PkgFmt.Tar :=
  (guess_single_segment "tar" "tar" PkgFmt.Tar (by decide) (by decide)).1

/-- Every token of the 13-entry table is accepted by the token `match`. -/
lemma guessToken_isSome_of_mem (t : String) (h : t ∈ fmtTokens) :
    (guessToken t).isSome := by
  simp only [fmtTokens, List.mem_cons, List.not_mem_nil, or_false] at h
  rcases h with rfl | rfl | rfl | rfl | rfl | rfl | rfl | rfl | rfl | rfl | rfl | rfl | rfl <;>
    decide

/-- The token `match` of `guess_pkg_format` accepts exactly the 13 table
tokens. -/
lemma guessToken_isSome_iff (t : String) :
    (guessToken t).isSome ↔ t ∈ fmtTokens := by
  constructor
  · intro h
    by_contra hn
    rw [guessToken_none_of_not_mem t hn] at h
    exact absurd h (by decide)
  · exact guessToken_isSome_of_mem t

/-- Every token of the table is already ASCII-lowercase. -/
lemma fmtTokens_ascii_lower : ∀ t ∈ fmtTokens, asciiLowerStr t = t := by decide

/-- C7: token matching is case-sensitive: a last segment that is an uppercase
or mixed-case spelling of a table token (its ASCII lower-casing is in the
table but it differs from it) yields `none`; exactly the 13 lowercase tokens
are accepted by the table; in particular `foo.GZ ↦ none` and
`foo.Zip ↦ none`. -/
theorem guess_case_sensitive (s tok : String)
    (hlast : lastSegment s = some tok)
    (hlow : asciiLowerStr tok ∈ fmtTokens)
    (hne : tok ≠ asciiLowerStr tok) :
    PkgFmt.guess_pkg_format s = none ∧
    (∀ t : String, (guessToken t).isSome ↔ t ∈ fmtTokens) ∧
    PkgFmt.guess_pkg_format "foo.GZ" = none ∧
    PkgFmt.guess_pkg_format "foo.Zip" = none := by
  refine ⟨?_, guessToken_isSome_iff, by decide, by decide⟩
  have hmem : tok ∉ fmtTokens := fun hm => hne (fmtTokens_ascii_lower tok hm).symm
  have htok : guessToken tok = none := guessToken_none_of_not_mem tok hmem
  rw [guess_pkg_format_eq_segments]
  unfold lastSegment at hlast
  cases hrev : (dotSegments s).reverse with
  | nil => rw [hrev] at hlast; simp at hlast
  | cons a rest =>
    rw [hrev] at hlast
    simp only [List.head?_cons, Option.some.injEq] at hlast
    subst hlast
    exact guessSegments_token_none a rest htok

/-- C7 witness: instantiated at `"foo.GZ"` with last segment `"GZ"`. -/
theorem guess_case_sensitive_witness :
    PkgFmt.guess_pkg_format "foo.GZ" = none :=
  (guess_case_sensitive "foo.GZ" "GZ" (by decide) (by decide) (by decide)).1

/-- C8: the default value of `PkgFmt` is `Tgz` (tar + gzip). -/
theorem default_pkg_fmt_is_tgz : PkgFmt.default = PkgFmt.Tgz := rfl

/-- C9: `guess_pkg_format` is deterministic — it is a pure function of its
argument, so two runs on the same string yield the same result. -/
theorem guess_pkg_format_deterministic :
    ∀ s₁ s₂ : String, s₁ = s₂ →
      PkgFmt.guess_pkg_format s₁ = PkgFmt.guess_pkg_format s₂ :=
  fun _ _ h => congrArg PkgFmt.guess_pkg_format h

/-- C9 witness: two runs on `"foo.tgz"` agree. -/
theorem guess_pkg_format_deterministic_witness :
    PkgFmt.guess_pkg_format "foo.tgz" = PkgFmt.guess_pkg_format "foo.tgz" :=
  guess_pkg_format_deterministic "foo.tgz" "foo.tgz" rfl

/-- C10: an empty segment to the left of `tar` counts as an existing stem: a
string whose dot-separated segments are exactly `["", "tar", tok]` (e.g. one
beginning with a dot, such as `.tar.gz`) with `tok` a matched token is
tar-upgraded, not rejected; in particular `.tar.gz ↦ Tgz`. -/
theorem guess_empty_stem_upgrades (s tok : String) (fmt : PkgFmt)
    (hparts : dotSegments s = ["", "tar", tok])
    (htok : guessToken tok = some fmt) :
    PkgFmt.guess_pkg_format s = some (tarUpgrade fmt) ∧
    PkgFmt.guess_pkg_format ".tar.gz" = some PkgFmt.Tgz := by
  refine ⟨?_, by decide⟩
  rw [guess_pkg_format_eq_segments, hparts]
  exact guessSegments_upgrade tok "" [] fmt htok

/-- C10 witness: instantiated at `".tar.gz"` with token `"gz"`. -/
theorem guess_empty_stem_upgrades_witness :
    PkgFmt.guess_pkg_format ".tar.gz" = some (tarUpgrade PkgFmt.Gz) :=
  (guess_empty_stem_upgrades ".tar.gz" "gz" PkgFmt.Gz (by decide) (by decide)).1
